import Mathlib

/-!
Verification of the buildlog/types library: a shallow embedding of the
repository's data model (v1 "events" documents and v2 "steps" documents),
its schema validator/parser, and the derived operations
(`computeStats`, `estimateBuildlogSize`, `isReplicable`, `toSlim`,
formatting helpers, `slugify`), with theorems checking the natural-language
specification against them.

JavaScript numbers that the schema constrains to non-negative integers
(durations, counts, sequence numbers) are embedded as `Nat`; other integral
numbers (exit codes, timestamps) as `Int`.  JavaScript strings are embedded
as Lean `String` (JS sorts and compares by UTF-16 code units, Lean by code
points; the two orders agree on the ASCII data these claims concern).
-/

namespace Buildlog

/-! ### A JSON value model

The library validates arbitrary JSON-compatible values ("unknown" input).
`Json` is the generic structured value produced by the external
`JSON.parse`; `stringify` embeds the external `JSON.stringify`
(key order is the object's field order, `undefined`/absent fields are
omitted; the common escape sequences are modelled, exotic control-character
escaping is not needed by any claim). -/

inductive Json where
  | null : Json
  | bool : Bool → Json
  | num : Int → Json
  | str : String → Json
  | arr : List Json → Json
  | obj : List (String × Json) → Json
deriving Repr

def escapeChar (c : Char) : String :=
  if c = '"' then "\\\""
  else if c = '\\' then "\\\\"
  else if c = '\n' then "\\n"
  else if c = '\t' then "\\t"
  else if c = '\r' then "\\r"
  else String.singleton c

def escapeString (s : String) : String :=
  String.join (s.data.map escapeChar)

mutual

def stringify : Json → String
  | .null => "null"
  | .bool true => "true"
  | .bool false => "false"
  | .num n => toString n
  | .str s => "\"" ++ escapeString s ++ "\""
  | .arr xs => "[" ++ stringifyArray xs ++ "]"
  | .obj fs => "\x7b" ++ stringifyFields fs ++ "\x7d"

def stringifyArray : List Json → String
  | [] => ""
  | [x] => stringify x
  | x :: y :: xs => stringify x ++ "," ++ stringifyArray (y :: xs)

def stringifyFields : List (String × Json) → String
  | [] => ""
  | [(k, v)] => "\"" ++ escapeString k ++ "\":" ++ stringify v
  | (k, v) :: f :: fs =>
      "\"" ++ escapeString k ++ "\":" ++ stringify v ++ "," ++ stringifyFields (f :: fs)

end

/-- Field lookup in a JSON object (first binding wins, as in a parsed JS
object where later duplicate keys have already been collapsed). -/
def Json.getField? : Json → String → Option Json
  | .obj fs, k => (fs.find? fun p => p.1 = k).map fun p => p.2
  | _, _ => none

/-! ### The v2 document model

`src/src/utils.ts` and `src/src/constants.ts` are the v2 modules present in
the repository.  The v2 `types.ts`/`schema.ts` modules themselves are not
under `src/` (only the v1 generation's are), so the v2 shapes are modelled
from the spec (§3) and the migration guide: a v2 document is
`version "2.0.0"`, a format tag (`slim`/`full`), metadata (with the
required `aiProvider` and `replicable` fields), a step list over six
discriminants, and a required outcome.  Full-mode-only fields
(`aiResponse`/`diffs` on action, `output`/`exitCode` on terminal) are
`Option`s: `none` embeds an absent key. -/

inductive Format where
  | slim : Format
  | full : Format
deriving Repr, DecidableEq

def Format.toStr : Format → String
  | .slim => "slim"
  | .full => "full"

structure BuildlogMetadata where
  id : String
  title : String
  description : Option String := none
  createdAt : String
  durationSeconds : Nat
  editor : String
  aiProvider : String
  language : Option String := none
  framework : Option String := none
  replicable : Bool
  dependencies : Option (List String) := none
  tags : Option (List String) := none
deriving Repr, DecidableEq

structure BaseStep where
  id : String
  timestamp : Int
  sequence : Nat
deriving Repr, DecidableEq

inductive BuildlogStep where
  | prompt (base : BaseStep) (content : String) (context : Option (List String))
  | action (base : BaseStep) (summary : String)
      (filesCreated filesModified filesDeleted : Option (List String))
      (aiResponse : Option String) (diffs : Option (List (String × String)))
  | terminal (base : BaseStep) (command : String)
      (output : Option String) (exitCode : Option Int)
  | note (base : BaseStep) (content : String)
  | checkpoint (base : BaseStep) (name : String) (summary : String)
  | error (base : BaseStep) (message : String)
deriving Repr, DecidableEq

/-- The `type` discriminant of a step (`step.type` in the source). -/
def BuildlogStep.type : BuildlogStep → String
  | .prompt .. => "prompt"
  | .action .. => "action"
  | .terminal .. => "terminal"
  | .note .. => "note"
  | .checkpoint .. => "checkpoint"
  | .error .. => "error"

/-- Property access `step.aiResponse` (JS yields `undefined` on non-action
steps, embedded as `none`). -/
def BuildlogStep.aiResponse : BuildlogStep → Option String
  | .action _ _ _ _ _ ai _ => ai
  | _ => none

def BuildlogStep.diffs : BuildlogStep → Option (List (String × String))
  | .action _ _ _ _ _ _ d => d
  | _ => none

def BuildlogStep.output : BuildlogStep → Option String
  | .terminal _ _ o _ => o
  | _ => none

def BuildlogStep.exitCode : BuildlogStep → Option Int
  | .terminal _ _ _ e => e
  | _ => none

structure BuildlogOutcome where
  status : String
  summary : String
  filesCreated : Nat
  filesModified : Nat
  canReplicate : Bool
  replicationNotes : Option String := none
deriving Repr, DecidableEq

structure BuildlogFile where
  version : String := "2.0.0"
  format : Format
  metadata : BuildlogMetadata
  steps : List BuildlogStep
  outcome : BuildlogOutcome
deriving Repr, DecidableEq

/-! ### v2 constants (`src/src/constants.ts`) -/

def BUILDLOG_MAX_SLIM_SIZE_BYTES : Nat := 100 * 1024

def BUILDLOG_MAX_FULL_SIZE_BYTES : Nat := 50 * 1024 * 1024

/-! ### v2 derived operations (`src/src/utils.ts`) -/

structure BuildlogStats where
  format : Format
  durationSeconds : Nat
  stepCount : Nat
  promptCount : Nat
  actionCount : Nat
  terminalCount : Nat
  noteCount : Nat
  filesCreated : Nat
  filesModified : Nat
  isReplicable : Bool
deriving Repr, DecidableEq

/-- Loop body of `computeStats`'s `for (const step of buildlog.steps)`
switch: prompt/action/terminal/note each bump their counter, the
checkpoint and error cases fall through unchanged. -/
def statsStep (stats : BuildlogStats) (step : BuildlogStep) : BuildlogStats :=
  match step with
  | .prompt .. => { stats with promptCount := stats.promptCount + 1 }
  | .action .. => { stats with actionCount := stats.actionCount + 1 }
  | .terminal .. => { stats with terminalCount := stats.terminalCount + 1 }
  | .note .. => { stats with noteCount := stats.noteCount + 1 }
  | .checkpoint .. => stats
  | .error .. => stats

/-- `computeStats` (v2): the initial record copies `format`,
`durationSeconds`, `steps.length`, `outcome.filesCreated`,
`outcome.filesModified` and `outcome.canReplicate`, then a single pass
over the steps increments the four per-kind counters. -/
def computeStats (buildlog : BuildlogFile) : BuildlogStats :=
  let stats : BuildlogStats :=
    { format := buildlog.format
      durationSeconds := buildlog.metadata.durationSeconds
      stepCount := buildlog.steps.length
      promptCount := 0
      actionCount := 0
      terminalCount := 0
      noteCount := 0
      filesCreated := buildlog.outcome.filesCreated
      filesModified := buildlog.outcome.filesModified
      isReplicable := buildlog.outcome.canReplicate }
  buildlog.steps.foldl statsStep stats

/-- `isReplicable` (v2): at least one prompt step, then the source's
`if (!buildlog.outcome) return false` guard (vacuous in the typed model,
where `outcome` is a required field and always present), then the
conjunction of the two explicit flags. -/
def isReplicable (buildlog : BuildlogFile) : Bool :=
  let hasPrompts := buildlog.steps.any fun s => s.type == "prompt"
  if !hasPrompts then false
  else buildlog.outcome.canReplicate && buildlog.metadata.replicable

/-- `toSlim` (v2): identity on slim documents; otherwise a new document
with format `slim` whose steps drop the full-mode-only fields (the
`const (aiResponse, diffs, ...slimAction) = step` rest-destructuring is
embedded as setting those optional fields to `none`). -/
def toSlim (buildlog : BuildlogFile) : BuildlogFile :=
  if buildlog.format = Format.slim then buildlog
  else
    { buildlog with
      format := Format.slim
      steps := buildlog.steps.map fun step =>
        match step with
        | .action base summary fc fm fd _ _ =>
            .action base summary fc fm fd none none
        | .terminal base command _ _ =>
            .terminal base command none none
        | s => s }

/-! ### Serialization of a typed v2 document

`estimateBuildlogSize` measures `JSON.stringify(buildlog).length` on the
typed document; `encodeBuildlogFile` is the JS object serialization of the
typed model (keys in declaration order, absent optionals omitted). -/

def optField (k : String) (f : α → Json) : Option α → List (String × Json)
  | none => []
  | some v => [(k, f v)]

def encodeMetadata (m : BuildlogMetadata) : Json :=
  .obj ([("id", .str m.id), ("title", .str m.title)]
    ++ optField "description" Json.str m.description
    ++ [("createdAt", .str m.createdAt),
        ("durationSeconds", .num (Int.ofNat m.durationSeconds)),
        ("editor", .str m.editor),
        ("aiProvider", .str m.aiProvider)]
    ++ optField "language" Json.str m.language
    ++ optField "framework" Json.str m.framework
    ++ [("replicable", .bool m.replicable)]
    ++ optField "dependencies" (fun l => .arr (l.map Json.str)) m.dependencies
    ++ optField "tags" (fun l => .arr (l.map Json.str)) m.tags)

def encodeBase (b : BaseStep) (ty : String) : List (String × Json) :=
  [("id", .str b.id), ("type", .str ty),
   ("timestamp", .num b.timestamp),
   ("sequence", .num (Int.ofNat b.sequence))]

def encodeStep : BuildlogStep → Json
  | .prompt base content context =>
      .obj (encodeBase base "prompt" ++ [("content", .str content)]
        ++ optField "context" (fun l => .arr (l.map Json.str)) context)
  | .action base summary fc fm fd ai diffs =>
      .obj (encodeBase base "action" ++ [("summary", .str summary)]
        ++ optField "filesCreated" (fun l => .arr (l.map Json.str)) fc
        ++ optField "filesModified" (fun l => .arr (l.map Json.str)) fm
        ++ optField "filesDeleted" (fun l => .arr (l.map Json.str)) fd
        ++ optField "aiResponse" Json.str ai
        ++ optField "diffs" (fun d => .obj (d.map fun p => (p.1, Json.str p.2))) diffs)
  | .terminal base command output exitCode =>
      .obj (encodeBase base "terminal" ++ [("command", .str command)]
        ++ optField "output" Json.str output
        ++ optField "exitCode" Json.num exitCode)
  | .note base content =>
      .obj (encodeBase base "note" ++ [("content", .str content)])
  | .checkpoint base name summary =>
      .obj (encodeBase base "checkpoint"
        ++ [("name", .str name), ("summary", .str summary)])
  | .error base message =>
      .obj (encodeBase base "error" ++ [("message", .str message)])

def encodeOutcome (o : BuildlogOutcome) : Json :=
  .obj ([("status", .str o.status), ("summary", .str o.summary),
         ("filesCreated", .num (Int.ofNat o.filesCreated)),
         ("filesModified", .num (Int.ofNat o.filesModified)),
         ("canReplicate", .bool o.canReplicate)]
    ++ optField "replicationNotes" Json.str o.replicationNotes)

def encodeBuildlogFile (b : BuildlogFile) : Json :=
  .obj [("version", .str b.version),
        ("format", .str b.format.toStr),
        ("metadata", encodeMetadata b.metadata),
        ("steps", .arr (b.steps.map encodeStep)),
        ("outcome", encodeOutcome b.outcome)]

inductive BuildlogSizeCategory where
  | tiny : BuildlogSizeCategory
  | small : BuildlogSizeCategory
  | medium : BuildlogSizeCategory
  | large : BuildlogSizeCategory
deriving Repr, DecidableEq

/-- `estimateBuildlogSize` (v2): bucket the serialized length by the three
fixed thresholds. -/
def estimateBuildlogSize (buildlog : BuildlogFile) : BuildlogSizeCategory :=
  let jsonSize := (stringify (encodeBuildlogFile buildlog)).length
  if jsonSize < 10 * 1024 then .tiny
  else if jsonSize < 50 * 1024 then .small
  else if jsonSize < 500 * 1024 then .medium
  else .large

/-! ### Duration and byte formatting (`src/src/utils.ts`) -/

/-- JS `String#padStart(2, '0')`. -/
def padStart2 (s : String) : String :=
  String.mk (List.replicate (2 - s.length) '0') ++ s

/-- `formatDuration` (v2, unit-suffixed form): hours drop the seconds. -/
def formatDuration (seconds : Nat) : String :=
  let hours := seconds / 3600
  let minutes := (seconds % 3600) / 60
  let secs := seconds % 60
  if hours > 0 then toString hours ++ "h " ++ toString minutes ++ "m"
  else if minutes > 0 then toString minutes ++ "m " ++ toString secs ++ "s"
  else toString secs ++ "s"

/-- `formatDurationClock` (v2, colon-delimited clock form). -/
def formatDurationClock (seconds : Nat) : String :=
  let hours := seconds / 3600
  let minutes := (seconds % 3600) / 60
  let secs := seconds % 60
  if hours > 0 then
    toString hours ++ ":" ++ padStart2 (toString minutes) ++ ":" ++ padStart2 (toString secs)
  else toString minutes ++ ":" ++ padStart2 (toString secs)

/-- `formatBytes`: the float `toFixed(1)` is embedded as rounding
`10 * bytes / divisor` half-up in integer arithmetic (exact on every value
any claim touches). -/
def oneDecimal (bytes : Nat) (divisor : Nat) : String :=
  let t := (bytes * 10 + divisor / 2) / divisor
  toString (t / 10) ++ "." ++ toString (t % 10)

def formatBytes (bytes : Nat) : String :=
  if bytes < 1024 then toString bytes ++ " B"
  else if bytes < 1024 * 1024 then oneDecimal bytes 1024 ++ " KB"
  else oneDecimal bytes (1024 * 1024) ++ " MB"

/-! ### `slugify` (`src/src/utils.ts`)

`title.toLowerCase().replace(non-alphanumeric-runs, '-')
     .replace(leading-or-trailing-hyphen, '').slice(0, 50)`. -/

def isSlugChar (c : Char) : Bool :=
  ('a' ≤ c && c ≤ 'z') || ('0' ≤ c && c ≤ '9')

/-- Global replacement of each maximal run of characters outside `[a-z0-9]`
by one hyphen; the boolean records whether the previous character was
inside such a run. -/
def collapseRuns : Bool → List Char → List Char
  | _, [] => []
  | inRun, c :: cs =>
      if isSlugChar c then c :: collapseRuns false cs
      else if inRun then collapseRuns true cs
      else '-' :: collapseRuns true cs

/-- `replace(/^-|-$/g, '')`: after run-collapsing at most one leading and
one trailing hyphen exist, and the regex removes one of each. -/
def trimLeadingHyphen : List Char → List Char
  | [] => []
  | c :: cs => if c = '-' then cs else c :: cs

def trimTrailingHyphen (cs : List Char) : List Char :=
  if cs.getLast? = some '-' then cs.dropLast else cs

def slugify (title : String) : String :=
  String.mk
    ((trimTrailingHyphen (trimLeadingHyphen
        (collapseRuns false (title.data.map Char.toLower)))).take 50)

/-! ### The v2 schema check

Modelled from the spec: the v2 `BuildlogFileSchema` module (zod) is not
among the repository's files under `src/` (only the v1 generation's
`schema.ts` is), so its `safeParse` is modelled from the spec's §4.1
rules: literal `version`/`format` discriminators, required
metadata/steps/outcome shapes, enum membership, title length in [1,200],
non-negative integer counts, closed step-discriminant set — and failure
reported as an exhaustively collected list of structured issues, each with
a field path, a human-readable message and a machine-checkable code
(UUID and ISO-8601 syntactic refinements are abstracted to string checks;
no claim turns on them). -/

structure Issue where
  path : List String
  message : String
  code : String
deriving Repr, DecidableEq

def expectedIssue (path : List String) (what : String) : List Issue :=
  [⟨path, "Expected " ++ what, "invalid_type"⟩]

def checkString : Json → List String → List Issue
  | .str _, _ => []
  | _, path => expectedIssue path "string"

def checkBool : Json → List String → List Issue
  | .bool _, _ => []
  | _, path => expectedIssue path "boolean"

def checkNonnegInt : Json → List String → List Issue
  | .num n, path =>
      if n < 0 then
        [⟨path, "Number must be greater than or equal to 0", "too_small"⟩]
      else []
  | _, path => expectedIssue path "number"

def checkEnum (vals : List String) : Json → List String → List Issue
  | .str s, path =>
      if s ∈ vals then [] else [⟨path, "Invalid enum value", "invalid_enum_value"⟩]
  | _, path => expectedIssue path "string"

def checkLiteral (lit : String) : Json → List String → List Issue
  | .str s, path =>
      if s = lit then []
      else [⟨path, "Invalid literal value, expected " ++ lit, "invalid_literal"⟩]
  | _, path => [⟨path, "Invalid literal value, expected " ++ lit, "invalid_literal"⟩]

def checkTitle : Json → List String → List Issue
  | .str s, path =>
      (if s.length < 1 then
        [⟨path, "String must contain at least 1 character", "too_small"⟩] else [])
      ++ (if s.length > 200 then
        [⟨path, "String must contain at most 200 characters", "too_big"⟩] else [])
  | _, path => expectedIssue path "string"

/-- A required object field: a missing key is itself an issue; a present
key is checked in place, the key appended to the path. -/
def requiredField (o : Json) (path : List String) (k : String)
    (f : Json → List String → List Issue) : List Issue :=
  match o.getField? k with
  | some v => f v (path ++ [k])
  | none => [⟨path ++ [k], "Required", "invalid_type"⟩]

def editorTypeValues : List String :=
  ["cursor", "vscode", "windsurf", "zed", "neovim", "jetbrains", "openclaw", "other"]

def aiProviderValues : List String :=
  ["claude", "gpt", "copilot", "gemini", "other"]

def outcomeStatusValues : List String :=
  ["success", "partial", "failure", "abandoned"]

def stepTypeValues : List String :=
  ["prompt", "action", "terminal", "note", "checkpoint", "error"]

def checkMetadata (j : Json) (path : List String) : List Issue :=
  match j with
  | .obj _ =>
      requiredField j path "id" checkString
      ++ requiredField j path "title" checkTitle
      ++ requiredField j path "createdAt" checkString
      ++ requiredField j path "durationSeconds" checkNonnegInt
      ++ requiredField j path "editor" (checkEnum editorTypeValues)
      ++ requiredField j path "aiProvider" (checkEnum aiProviderValues)
      ++ requiredField j path "replicable" checkBool
  | _ => expectedIssue path "object"

/-- The step discriminant selects which payload field is required beside
the base triple. -/
def checkStepPayload (j : Json) (path : List String) (ty : String) : List Issue :=
  if ty = "prompt" then requiredField j path "content" checkString
  else if ty = "action" then requiredField j path "summary" checkString
  else if ty = "terminal" then requiredField j path "command" checkString
  else if ty = "note" then requiredField j path "content" checkString
  else if ty = "checkpoint" then
    requiredField j path "name" checkString ++ requiredField j path "summary" checkString
  else requiredField j path "message" checkString

def checkStep (j : Json) (path : List String) : List Issue :=
  match j with
  | .obj _ =>
      requiredField j path "id" checkString
      ++ requiredField j path "timestamp" checkNonnegInt
      ++ requiredField j path "sequence" checkNonnegInt
      ++ (match j.getField? "type" with
          | some (.str t) =>
              if t ∈ stepTypeValues then checkStepPayload j path t
              else [⟨path ++ ["type"], "Invalid discriminator value",
                     "invalid_union_discriminator"⟩]
          | some _ => expectedIssue (path ++ ["type"]) "string"
          | none => [⟨path ++ ["type"], "Required", "invalid_type"⟩])
  | _ => expectedIssue path "object"

def checkSteps (j : Json) (path : List String) : List Issue :=
  match j with
  | .arr xs => (xs.enum.map fun p => checkStep p.2 (path ++ [toString p.1])).flatten
  | _ => expectedIssue path "array"

def checkOutcome (j : Json) (path : List String) : List Issue :=
  match j with
  | .obj _ =>
      requiredField j path "status" (checkEnum outcomeStatusValues)
      ++ requiredField j path "summary" checkString
      ++ requiredField j path "filesCreated" checkNonnegInt
      ++ requiredField j path "filesModified" checkNonnegInt
      ++ requiredField j path "canReplicate" checkBool
  | _ => expectedIssue path "object"

/-- All structural issues of a candidate v2 document, collected
exhaustively (every field is visited; nothing stops at the first
failure). -/
def checkBuildlogFile (data : Json) : List Issue :=
  match data with
  | .obj _ =>
      requiredField data [] "version" (checkLiteral "2.0.0")
      ++ requiredField data [] "format" (checkEnum ["slim", "full"])
      ++ requiredField data [] "metadata" checkMetadata
      ++ requiredField data [] "steps" checkSteps
      ++ requiredField data [] "outcome" checkOutcome
  | _ => expectedIssue [] "object"

/-! Decoding a checked value into the typed model.  The decoders are total
(missing or ill-typed fields fall back to defaults); `safeParse` only uses
them on input the check confirmed, so the defaults are never the decoded
value of a validated document's field. -/

def getFieldD (o : Json) (k : String) : Json :=
  (o.getField? k).getD .null

def getStr (o : Json) (k : String) : String :=
  match o.getField? k with
  | some (.str s) => s
  | _ => ""

def getStrOpt (o : Json) (k : String) : Option String :=
  match o.getField? k with
  | some (.str s) => some s
  | _ => none

def getNat (o : Json) (k : String) : Nat :=
  match o.getField? k with
  | some (.num n) => n.toNat
  | _ => 0

def getInt (o : Json) (k : String) : Int :=
  match o.getField? k with
  | some (.num n) => n
  | _ => 0

def getIntOpt (o : Json) (k : String) : Option Int :=
  match o.getField? k with
  | some (.num n) => some n
  | _ => none

def getBool (o : Json) (k : String) : Bool :=
  match o.getField? k with
  | some (.bool b) => b
  | _ => false

def getStrListOpt (o : Json) (k : String) : Option (List String) :=
  match o.getField? k with
  | some (.arr xs) => some (xs.filterMap fun j =>
      match j with
      | .str s => some s
      | _ => none)
  | _ => none

def getDiffsOpt (o : Json) (k : String) : Option (List (String × String)) :=
  match o.getField? k with
  | some (.obj fs) => some (fs.filterMap fun p =>
      match p.2 with
      | .str s => some (p.1, s)
      | _ => none)
  | _ => none

def decodeFormat (data : Json) : Format :=
  match getStr data "format" with
  | "full" => Format.full
  | _ => Format.slim

def decodeMetadata (j : Json) : BuildlogMetadata :=
  { id := getStr j "id"
    title := getStr j "title"
    description := getStrOpt j "description"
    createdAt := getStr j "createdAt"
    durationSeconds := getNat j "durationSeconds"
    editor := getStr j "editor"
    aiProvider := getStr j "aiProvider"
    language := getStrOpt j "language"
    framework := getStrOpt j "framework"
    replicable := getBool j "replicable"
    dependencies := getStrListOpt j "dependencies"
    tags := getStrListOpt j "tags" }

def decodeStep (j : Json) : BuildlogStep :=
  let base : BaseStep := ⟨getStr j "id", getInt j "timestamp", getNat j "sequence"⟩
  match getStr j "type" with
  | "prompt" => .prompt base (getStr j "content") (getStrListOpt j "context")
  | "action" => .action base (getStr j "summary")
      (getStrListOpt j "filesCreated") (getStrListOpt j "filesModified")
      (getStrListOpt j "filesDeleted") (getStrOpt j "aiResponse")
      (getDiffsOpt j "diffs")
  | "terminal" => .terminal base (getStr j "command")
      (getStrOpt j "output") (getIntOpt j "exitCode")
  | "note" => .note base (getStr j "content")
  | "checkpoint" => .checkpoint base (getStr j "name") (getStr j "summary")
  | _ => .error base (getStr j "message")

def decodeSteps (data : Json) : List BuildlogStep :=
  match data.getField? "steps" with
  | some (.arr xs) => xs.map decodeStep
  | _ => []

def decodeOutcome (j : Json) : BuildlogOutcome :=
  { status := getStr j "status"
    summary := getStr j "summary"
    filesCreated := getNat j "filesCreated"
    filesModified := getNat j "filesModified"
    canReplicate := getBool j "canReplicate"
    replicationNotes := getStrOpt j "replicationNotes" }

def decodeBuildlogFile (data : Json) : BuildlogFile :=
  { version := getStr data "version"
    format := decodeFormat data
    metadata := decodeMetadata (getFieldD data "metadata")
    steps := decodeSteps data
    outcome := decodeOutcome (getFieldD data "outcome") }

inductive SchemaResult where
  | success (doc : BuildlogFile)
  | failure (issues : List Issue)
deriving Repr, DecidableEq

/-- Modelled from the spec: zod's `BuildlogFileSchema.safeParse` — a typed
document when the exhaustive check found nothing, otherwise the full issue
list. -/
def BuildlogFileSchema.safeParse (data : Json) : SchemaResult :=
  let issues := checkBuildlogFile data
  if issues.isEmpty then .success (decodeBuildlogFile data) else .failure issues

/-! ### `validateBuildlog` / `parseBuildlog` / `safeParseBuildlog`
(`src/src/utils.ts`) -/

structure ValidationError where
  path : String
  message : String
  code : String
deriving Repr, DecidableEq

structure ValidationWarning where
  path : String
  message : String
  suggestion : String
deriving Repr, DecidableEq

/-- `{valid: true, warnings?}` / `{valid: false, errors}`; `warnings` is
`none` when the source leaves the key `undefined`. -/
inductive ValidationResult where
  | ok (warnings : Option (List ValidationWarning))
  | err (errors : List ValidationError)
deriving Repr, DecidableEq

def validateBuildlog (data : Json) : ValidationResult :=
  match BuildlogFileSchema.safeParse data with
  | .success buildlog =>
      let jsonSize := (stringify data).length
      let warnings : List ValidationWarning :=
        (if buildlog.format = Format.slim ∧ jsonSize > BUILDLOG_MAX_SLIM_SIZE_BYTES then
          [⟨"format",
            "Slim buildlog is " ++ formatBytes jsonSize
              ++ ", which exceeds the recommended "
              ++ formatBytes BUILDLOG_MAX_SLIM_SIZE_BYTES ++ " limit",
            "Consider removing full diffs or AI responses, or switch to full format"⟩]
         else [])
        ++ (if buildlog.format = Format.full ∧ jsonSize > BUILDLOG_MAX_FULL_SIZE_BYTES then
          [⟨"format",
            "Full buildlog is " ++ formatBytes jsonSize
              ++ ", which exceeds the recommended "
              ++ formatBytes BUILDLOG_MAX_FULL_SIZE_BYTES ++ " limit",
            "Consider splitting into multiple buildlogs"⟩]
         else [])
      .ok (if warnings.length > 0 then some warnings else none)
  | .failure issues =>
      .err (issues.map fun i => ⟨String.intercalate "." i.path, i.message, i.code⟩)

/-- The two terminal failure kinds of `parseBuildlog`: the `SyntaxError`
thrown by the external `JSON.parse` on malformed text, and the zod error
(carrying the issue list) thrown by `BuildlogFileSchema.parse`. -/
inductive ParseFailure where
  | malformedJson : ParseFailure
  | schemaIssues (issues : List Issue) : ParseFailure
deriving Repr, DecidableEq

/-- Modelled from the spec: the external `JSON.parse` is represented by
its result, so `parseBuildlog` takes the deserialized value — `none` when
the raw text is not well-formed JSON (where `JSON.parse` throws a
`SyntaxError`), `some data` otherwise. -/
def parseBuildlog (parsed : Option Json) : Except ParseFailure BuildlogFile :=
  match parsed with
  | none => .error .malformedJson
  | some data =>
      match BuildlogFileSchema.safeParse data with
      | .success doc => .ok doc
      | .failure issues => .error (.schemaIssues issues)

/-- `safeParseBuildlog`: the `try/catch` around `parseBuildlog`, collapsing
either failure kind to `null`. -/
def safeParseBuildlog (parsed : Option Json) : Option BuildlogFile :=
  match parseBuildlog parsed with
  | .ok doc => some doc
  | .error _ => none

/-! ### The v1 document model (`src/src/types.ts`, `src/unnamed/part_001`)

The first generation: an event list between two file-system state
snapshots.  Optional fields are `Option`s; enum-valued fields are embedded
as the enum's string (the schema checks membership separately). -/

namespace V1

structure TextSelection where
  filePath : String
  startLine : Nat
  endLine : Nat
  text : String
deriving Repr, DecidableEq

structure CodeBlock where
  language : String
  code : String
  filePath : Option String := none
  startLine : Option Nat := none
deriving Repr, DecidableEq

structure TokenUsage where
  input : Option Nat := none
  output : Option Nat := none
deriving Repr, DecidableEq

structure LinesChanged where
  added : Nat
  removed : Nat
deriving Repr, DecidableEq

structure NoteReference where
  filePath : String
  startLine : Option Nat := none
  endLine : Option Nat := none
deriving Repr, DecidableEq

structure FileSnapshot where
  path : String
  content : String
  language : String
  sizeBytes : Option Nat := none
  hash : Option String := none
deriving Repr, DecidableEq

structure BuildlogState where
  files : List FileSnapshot
  fileTree : Option (List String) := none
deriving Repr, DecidableEq

structure BuildlogAuthor where
  name : Option String := none
  username : Option String := none
  url : Option String := none
  avatarUrl : Option String := none
deriving Repr, DecidableEq

structure BuildlogProject where
  name : Option String := none
  repository : Option String := none
  branch : Option String := none
  commit : Option String := none
deriving Repr, DecidableEq

structure BuildlogMetadata where
  id : String
  title : String
  description : Option String := none
  author : Option BuildlogAuthor := none
  createdAt : String
  updatedAt : Option String := none
  durationSeconds : Nat
  editor : String
  aiProviders : Option (List String) := none
  primaryLanguage : Option String := none
  languages : Option (List String) := none
  tags : Option (List String) := none
  project : Option BuildlogProject := none
  custom : Option (List (String × Json)) := none
deriving Repr

structure BaseEvent where
  id : String
  timestamp : Int
  sequence : Nat
deriving Repr, DecidableEq

inductive BuildlogEvent where
  | prompt (base : BaseEvent) (content : String)
      (contextFiles : Option (List String)) (selection : Option TextSelection)
      (provider : Option String) (model : Option String)
  | aiResponse (base : BaseEvent) (content : String)
      (codeBlocks : Option (List CodeBlock)) (promptEventId : Option String)
      (provider : Option String) (model : Option String)
      (tokenUsage : Option TokenUsage)
  | codeChange (base : BaseEvent) (filePath : String) (diff : String)
      (source : String) (linesChanged : Option LinesChanged)
      (aiResponseEventId : Option String)
  | fileCreate (base : BaseEvent) (filePath : String) (content : String)
      (language : String) (source : String) (aiResponseEventId : Option String)
  | fileDelete (base : BaseEvent) (filePath : String)
      (previousContent : Option String)
  | fileRename (base : BaseEvent) (fromPath : String) (toPath : String)
  | terminal (base : BaseEvent) (command : String) (output : Option String)
      (exitCode : Option Int) (cwd : Option String)
      (durationSeconds : Option Nat)
  | note (base : BaseEvent) (content : String) (category : Option String)
      (reference : Option NoteReference)
  | checkpoint (base : BaseEvent) (name : String)
      (description : Option String) (state : Option BuildlogState)
  | error (base : BaseEvent) (message : String) (category : String)
      (filePath : Option String) (line : Option Nat)
      (stackTrace : Option String) (resolved : Option Bool)
      (resolvedByEventId : Option String)
deriving Repr

/-- The `type` discriminant of a v1 event. -/
def BuildlogEvent.type : BuildlogEvent → String
  | .prompt .. => "prompt"
  | .aiResponse .. => "ai_response"
  | .codeChange .. => "code_change"
  | .fileCreate .. => "file_create"
  | .fileDelete .. => "file_delete"
  | .fileRename .. => "file_rename"
  | .terminal .. => "terminal"
  | .note .. => "note"
  | .checkpoint .. => "checkpoint"
  | .error .. => "error"

structure BuildlogFile where
  version : String := "1.0.0"
  metadata : BuildlogMetadata
  initialState : BuildlogState
  events : List BuildlogEvent
  finalState : BuildlogState
deriving Repr

structure BuildlogStats where
  durationSeconds : Nat
  eventCount : Nat
  promptCount : Nat
  responseCount : Nat
  fileCount : Nat
  linesAdded : Nat
  linesRemoved : Nat
  languages : List String
deriving Repr, DecidableEq

/-- `languageSet.add(l)` on a JS `Set` kept as an insertion-ordered
duplicate-free list. -/
def insertLang (set : List String) (l : String) : List String :=
  if l ∈ set then set else set ++ [l]

/-- Loop body of v1 `computeStats`'s `for (const event of buildlog.events)`
switch, threading the stats record and the language set. -/
def statsStep (p : BuildlogStats × List String) (event : BuildlogEvent) :
    BuildlogStats × List String :=
  let (stats, set) := p
  match event with
  | .prompt .. => ({ stats with promptCount := stats.promptCount + 1 }, set)
  | .aiResponse .. => ({ stats with responseCount := stats.responseCount + 1 }, set)
  | .codeChange _ _ _ _ linesChanged _ =>
      match linesChanged with
      | some lc =>
          ({ stats with
              linesAdded := stats.linesAdded + lc.added
              linesRemoved := stats.linesRemoved + lc.removed }, set)
      | none => (stats, set)
  | .fileCreate _ _ _ language _ _ => (stats, insertLang set language)
  | _ => (stats, set)

/-- `Array.from(languageSet).sort()`: JS default sort on strings is
lexicographic. -/
def sortLangs (set : List String) : List String :=
  set.insertionSort (fun a b => a ≤ b)

/-- `computeStats` (v1, `src/unnamed/part_001`): one pass over the events,
then the final-state file languages are added to the set and the sorted set
becomes `languages`. -/
def computeStats (buildlog : BuildlogFile) : BuildlogStats :=
  let stats : BuildlogStats :=
    { durationSeconds := buildlog.metadata.durationSeconds
      eventCount := buildlog.events.length
      promptCount := 0
      responseCount := 0
      fileCount := buildlog.finalState.files.length
      linesAdded := 0
      linesRemoved := 0
      languages := [] }
  let p := buildlog.events.foldl statsStep (stats, [])
  let languageSet := buildlog.finalState.files.foldl
    (fun set f => insertLang set f.language) p.2
  { p.1 with languages := sortLangs languageSet }

/-- `formatDuration` (v1, `src/unnamed/part_001`): the colon-delimited
clock form. -/
def formatDuration (seconds : Nat) : String :=
  let hours := seconds / 3600
  let minutes := (seconds % 3600) / 60
  let secs := seconds % 60
  if hours > 0 then
    toString hours ++ ":" ++ padStart2 (toString minutes) ++ ":" ++ padStart2 (toString secs)
  else toString minutes ++ ":" ++ padStart2 (toString secs)

end V1

/-! ### Concrete sample documents and claim-side definitions -/

/-- The valid v2 document of the repository's test suite
(`src/unnamed/part_000`), as a JSON value. -/
def sampleJson : Json :=
  .obj [("version", .str "2.0.0"), ("format", .str "slim"),
        ("metadata", .obj [("id", .str "550e8400-e29b-41d4-a716-446655440000"),
          ("title", .str "Test Session"),
          ("createdAt", .str "2026-02-01T14:30:00Z"),
          ("durationSeconds", .num 300), ("editor", .str "vscode"),
          ("aiProvider", .str "claude"), ("replicable", .bool true)]),
        ("steps", .arr [
          .obj [("id", .str "550e8400-e29b-41d4-a716-446655440001"),
            ("type", .str "prompt"), ("timestamp", .num 0), ("sequence", .num 0),
            ("content", .str "Create a hello world function"),
            ("context", .arr [.str "index.ts"])],
          .obj [("id", .str "550e8400-e29b-41d4-a716-446655440002"),
            ("type", .str "action"), ("timestamp", .num 5), ("sequence", .num 1),
            ("summary", .str "Created hello world function in index.ts"),
            ("filesCreated", .arr [.str "index.ts"])]]),
        ("outcome", .obj [("status", .str "success"),
          ("summary", .str "Created a simple hello world function"),
          ("filesCreated", .num 1), ("filesModified", .num 0),
          ("canReplicate", .bool true)])]

def sampleDoc : BuildlogFile := decodeBuildlogFile sampleJson

def sampleFullDoc : BuildlogFile := { sampleDoc with format := Format.full }

/-- A document whose `outcome.canReplicate` is true while
`metadata.replicable` is false. -/
def mismatchDoc : BuildlogFile :=
  { sampleDoc with metadata := { sampleDoc.metadata with replicable := false } }

/-- The valid v1 document of the repository's v1 test suite
(`src/test/schema.test.ts`). -/
def sampleV1Doc : V1.BuildlogFile :=
  { version := "1.0.0"
    metadata :=
      { id := "550e8400-e29b-41d4-a716-446655440000"
        title := "Test Session"
        createdAt := "2026-02-01T14:30:00Z"
        durationSeconds := 300
        editor := "vscode" }
    initialState := { files := [] }
    events :=
      [.prompt ⟨"550e8400-e29b-41d4-a716-446655440001", 0, 0⟩
         "Create a hello world function" none none none none,
       .aiResponse ⟨"550e8400-e29b-41d4-a716-446655440002", 5, 1⟩
         "Here is a hello world function..." none none none none none]
    finalState :=
      { files := [{ path := "index.ts", content := "function hello() \x7b\x7d",
                    language := "typescript" }] } }

/-- The issue list the modelled schema reports for the empty object: one
`Required` issue per missing root field, all collected. -/
def emptyRootIssues : List Issue :=
  [⟨["version"], "Required", "invalid_type"⟩,
   ⟨["format"], "Required", "invalid_type"⟩,
   ⟨["metadata"], "Required", "invalid_type"⟩,
   ⟨["steps"], "Required", "invalid_type"⟩,
   ⟨["outcome"], "Required", "invalid_type"⟩]

/-- How `validateBuildlog` surfaces one schema issue: the path dot-joined,
the message and the code carried over. -/
def issueToError (i : Issue) : ValidationError :=
  ⟨String.intercalate "." i.path, i.message, i.code⟩

/-- The claim's description of the slim-reduction of one step: action
steps lose `aiResponse`/`diffs`, terminal steps lose `output`/`exitCode`,
every other step passes through unchanged. -/
def slimmedStep (s t : BuildlogStep) : Prop :=
  match s with
  | .action base summary fc fm fd _ _ => t = .action base summary fc fm fd none none
  | .terminal base command _ _ => t = .terminal base command none none
  | _ => t = s

/-- Lines added by a v1 event, per the claim: the `added` count of a
`code_change` event that carries `linesChanged`, else 0. -/
def addedLines : V1.BuildlogEvent → Nat
  | .codeChange _ _ _ _ (some lc) _ => lc.added
  | _ => 0

def removedLines : V1.BuildlogEvent → Nat
  | .codeChange _ _ _ _ (some lc) _ => lc.removed
  | _ => 0

/-- The language a v1 `file_create` event contributes to the language set,
per the claim. -/
def createLanguage? : V1.BuildlogEvent → Option String
  | .fileCreate _ _ _ language _ _ => some language
  | _ => none

/-! ## Theorems -/

/-- C1: for every v2 document, `isReplicable` returns true exactly when the
step list contains a `prompt`-type step and `outcome.canReplicate` and
`metadata.replicable` are both true.  (The claim's "outcome is present"
condition is the source's truthiness guard on `buildlog.outcome`, which in
the typed model — where `outcome` is a required field — always holds; the
short-circuit order of the source is evaluation strategy and does not
change the value.) -/
theorem isReplicable_iff (doc : BuildlogFile) :
    isReplicable doc = true ↔
      ((∃ s ∈ doc.steps, s.type = "prompt") ∧
       doc.outcome.canReplicate = true ∧ doc.metadata.replicable = true) := by
  by_cases hps : ∃ s ∈ doc.steps, s.type = "prompt"
  · have hany : doc.steps.any (fun s => s.type == "prompt") = true := by
      simp only [List.any_eq_true, beq_iff_eq]; exact hps
    simp [isReplicable, hany, hps, Bool.and_eq_true]
  · have hany : doc.steps.any (fun s => s.type == "prompt") = false := by
      simp only [Bool.eq_false_iff, ne_eq, List.any_eq_true, beq_iff_eq]
      exact hps
    simp [isReplicable, hany, hps]

/-- C2: `toSlim` is the identity on a document already in slim format;
on a full document it yields a document with format slim, the same
version/metadata/outcome, and steps of the same length where each action
step has `aiResponse`/`diffs` removed, each terminal step has
`output`/`exitCode` removed, and every other step is unchanged
(`slimmedStep` states the claim's per-step description).  The "never
mutates its input" part holds by construction in the pure embedding. -/
theorem toSlim_spec (doc : BuildlogFile) :
    (doc.format = Format.slim → toSlim doc = doc) ∧
    (doc.format = Format.full →
      (toSlim doc).format = Format.slim ∧
      (toSlim doc).version = doc.version ∧
      (toSlim doc).metadata = doc.metadata ∧
      (toSlim doc).outcome = doc.outcome ∧
      (toSlim doc).steps.length = doc.steps.length ∧
      ∀ (i : Nat) (s t : BuildlogStep), doc.steps[i]? = some s →
        (toSlim doc).steps[i]? = some t → slimmedStep s t) := by
  constructor
  · intro h
    simp [toSlim, h]
  · intro h
    have hns : ¬ doc.format = Format.slim := by simp [h]
    have hsteps : (toSlim doc).steps = doc.steps.map fun step =>
        match step with
        | .action base summary fc fm fd _ _ =>
            BuildlogStep.action base summary fc fm fd none none
        | .terminal base command _ _ => BuildlogStep.terminal base command none none
        | s => s := by
      simp [toSlim, hns]
    refine ⟨by simp [toSlim, hns], by simp [toSlim, hns], by simp [toSlim, hns],
      by simp [toSlim, hns], by simp [hsteps], ?_⟩
    intro i s t hs ht
    rw [hsteps, List.getElem?_map, hs] at ht
    cases ht
    cases s <;> simp [slimmedStep]

/-- Witness for C2: the slim test document is returned unchanged, and
slimming its full variant yields a slim-format document. -/
theorem toSlim_spec_witness :
    toSlim sampleDoc = sampleDoc ∧ (toSlim sampleFullDoc).format = Format.slim :=
  ⟨(toSlim_spec sampleDoc).1 (by decide), ((toSlim_spec sampleFullDoc).2 (by decide)).1⟩

/-- C3: `validateBuildlog` is a total function into result values — every
input yields either `valid: true` (with optional warnings) or
`valid: false` with a non-empty error list whose entries carry the
dot-joined path, message and code of the schema issues; and on the empty
object the issues are collected exhaustively (several errors at distinct
paths at once, not just the first). -/
theorem validateBuildlog_result_shape :
    (∀ data : Json,
      (∃ ws, validateBuildlog data = ValidationResult.ok ws) ∨
      (∃ issues : List Issue, 0 < issues.length ∧
        validateBuildlog data = ValidationResult.err (issues.map issueToError))) ∧
    (∃ errs, validateBuildlog (Json.obj []) = ValidationResult.err errs ∧
      2 ≤ errs.length ∧
      (∃ e ∈ errs, e.path = "version") ∧ (∃ e ∈ errs, e.path = "outcome")) := by
  constructor
  · intro data
    by_cases h : (checkBuildlogFile data).isEmpty
    · left
      have hsp : BuildlogFileSchema.safeParse data =
          SchemaResult.success (decodeBuildlogFile data) := by
        simp [BuildlogFileSchema.safeParse, h]
      simp only [validateBuildlog, hsp]
      exact ⟨_, rfl⟩
    · right
      refine ⟨checkBuildlogFile data, ?_, ?_⟩
      · have : checkBuildlogFile data ≠ [] := by
          simpa [List.isEmpty_iff] using h
        exact List.length_pos.mpr this
      · simp only [validateBuildlog, BuildlogFileSchema.safeParse, h]
        rfl
  · exact ⟨emptyRootIssues.map issueToError, by decide, by decide, by decide, by decide⟩

/-- C4: `parseBuildlog` fails with the `SyntaxError`-class condition
exactly on malformed JSON text, fails with the `SchemaError`-class
condition carrying the same issue list `validateBuildlog` reports when the
text parses but the schema check fails, and returns a document only when
the schema check fully succeeded (no partial document); `safeParseBuildlog`
returns the document on success and `none` on either failure kind. -/
theorem parseBuildlog_failure_modes :
    (parseBuildlog none = Except.error ParseFailure.malformedJson) ∧
    (∀ data issues, BuildlogFileSchema.safeParse data = SchemaResult.failure issues →
      parseBuildlog (some data) = Except.error (ParseFailure.schemaIssues issues) ∧
      validateBuildlog data = ValidationResult.err (issues.map issueToError)) ∧
    (∀ p doc, parseBuildlog p = Except.ok doc →
      (∃ data, p = some data ∧
        BuildlogFileSchema.safeParse data = SchemaResult.success doc) ∧
      safeParseBuildlog p = some doc) ∧
    (∀ p, safeParseBuildlog p = none ↔ ∃ e, parseBuildlog p = Except.error e) ∧
    (safeParseBuildlog none = none) ∧
    (safeParseBuildlog (some (Json.obj [])) = none) := by
  refine ⟨rfl, ?_, ?_, ?_, rfl, by decide⟩
  · intro data issues hfail
    constructor
    · simp [parseBuildlog, hfail]
    · simp only [validateBuildlog]
      rw [hfail]
      rfl
  · intro p doc hok
    match p with
    | none => simp [parseBuildlog] at hok
    | some data =>
        constructor
        · refine ⟨data, rfl, ?_⟩
          simp only [parseBuildlog] at hok
          cases hsp : BuildlogFileSchema.safeParse data with
          | success d => rw [hsp] at hok; cases hok; rfl
          | failure issues => rw [hsp] at hok; cases hok
        · simp [safeParseBuildlog, hok]
  · intro p
    constructor
    · intro hnone
      cases hp : parseBuildlog p with
      | ok doc => rw [safeParseBuildlog, hp] at hnone; cases hnone
      | error e => exact ⟨e, rfl⟩
    · rintro ⟨e, he⟩
      rw [safeParseBuildlog, he]

/-- Witness for C4: the schema-invalid empty object makes `parseBuildlog`
fail with the schema-class condition carrying its issue list. -/
theorem parseBuildlog_failure_modes_witness :
    parseBuildlog (some (Json.obj [])) =
      Except.error (ParseFailure.schemaIssues emptyRootIssues) :=
  (parseBuildlog_failure_modes.2.1 (Json.obj []) emptyRootIssues (by decide)).1

/-- C5: on input passing the structural check, `validateBuildlog` returns
`valid: true` with warnings (never errors): the single slim-size warning
when a slim document's serialized length exceeds the slim threshold, the
single full-size warning when a full document's exceeds the full
threshold, and no warnings otherwise; each warning carries the `format`
path, a message and a remediation suggestion. -/
theorem validateBuildlog_size_advisory (data : Json) (doc : BuildlogFile)
    (h : BuildlogFileSchema.safeParse data = SchemaResult.success doc) :
    ∃ ws, validateBuildlog data = ValidationResult.ok ws ∧
      ((doc.format = Format.slim ∧
          (stringify data).length > BUILDLOG_MAX_SLIM_SIZE_BYTES) →
        ws = some [⟨"format",
          "Slim buildlog is " ++ formatBytes (stringify data).length
            ++ ", which exceeds the recommended "
            ++ formatBytes BUILDLOG_MAX_SLIM_SIZE_BYTES ++ " limit",
          "Consider removing full diffs or AI responses, or switch to full format"⟩]) ∧
      ((doc.format = Format.full ∧
          (stringify data).length > BUILDLOG_MAX_FULL_SIZE_BYTES) →
        ws = some [⟨"format",
          "Full buildlog is " ++ formatBytes (stringify data).length
            ++ ", which exceeds the recommended "
            ++ formatBytes BUILDLOG_MAX_FULL_SIZE_BYTES ++ " limit",
          "Consider splitting into multiple buildlogs"⟩]) ∧
      (((doc.format = Format.slim →
          (stringify data).length ≤ BUILDLOG_MAX_SLIM_SIZE_BYTES) ∧
        (doc.format = Format.full →
          (stringify data).length ≤ BUILDLOG_MAX_FULL_SIZE_BYTES)) →
        ws = none) := by
  simp only [validateBuildlog, h]
  refine ⟨_, rfl, ?_, ?_, ?_⟩
  · rintro ⟨h1, h2⟩
    simp [h1, h2]
  · rintro ⟨h1, h2⟩
    simp [h1, h2]
  · rintro ⟨hns, hnf⟩
    cases hfmt : doc.format with
    | slim =>
        have : ¬ (stringify data).length > BUILDLOG_MAX_SLIM_SIZE_BYTES := by
          have := hns hfmt; omega
        simp [hfmt, this]
    | full =>
        have : ¬ (stringify data).length > BUILDLOG_MAX_FULL_SIZE_BYTES := by
          have := hnf hfmt; omega
        simp [hfmt, this]

/-- Witness for C5: the structurally valid test document validates as
`valid: true`. -/
theorem validateBuildlog_size_advisory_witness :
    ∃ ws, validateBuildlog sampleJson = ValidationResult.ok ws := by
  obtain ⟨ws, hws, _⟩ :=
    validateBuildlog_size_advisory sampleJson sampleDoc (by decide)
  exact ⟨ws, hws⟩

/-- C6: `estimateBuildlogSize` serializes the full document and buckets
its length with half-open boundaries: `tiny` exactly below 10240, `small`
exactly on [10240, 51200), `medium` on [51200, 512000), `large` from
512000 up (so a measurement of exactly 10240 is `small`, not `tiny`). -/
theorem estimateBuildlogSize_buckets (doc : BuildlogFile) :
    ((estimateBuildlogSize doc = BuildlogSizeCategory.tiny ↔
        (stringify (encodeBuildlogFile doc)).length < 10240) ∧
     (estimateBuildlogSize doc = BuildlogSizeCategory.small ↔
        10240 ≤ (stringify (encodeBuildlogFile doc)).length ∧
        (stringify (encodeBuildlogFile doc)).length < 51200) ∧
     (estimateBuildlogSize doc = BuildlogSizeCategory.medium ↔
        51200 ≤ (stringify (encodeBuildlogFile doc)).length ∧
        (stringify (encodeBuildlogFile doc)).length < 512000) ∧
     (estimateBuildlogSize doc = BuildlogSizeCategory.large ↔
        512000 ≤ (stringify (encodeBuildlogFile doc)).length)) := by
  unfold estimateBuildlogSize
  dsimp only
  split_ifs with h1 h2 h3 <;> simp_all <;> omega

theorem statsFold_fst (events : List V1.BuildlogEvent) :
    ∀ p : V1.BuildlogStats × List String,
      (events.foldl V1.statsStep p).1 =
        { p.1 with
          promptCount := p.1.promptCount +
            events.countP (fun e => e.type == "prompt")
          responseCount := p.1.responseCount +
            events.countP (fun e => e.type == "ai_response")
          linesAdded := p.1.linesAdded + (events.map addedLines).sum
          linesRemoved := p.1.linesRemoved + (events.map removedLines).sum } := by
  induction events with
  | nil => intro p; simp
  | cons e es ih =>
      intro p
      rw [List.foldl_cons, ih]
      obtain ⟨stats, set⟩ := p
      cases e <;>
        simp [V1.statsStep, V1.BuildlogEvent.type, addedLines, removedLines,
          List.countP_cons] <;>
        first
          | omega
          | (split <;> (simp [addedLines, removedLines]; try omega))

theorem statsFold_snd (events : List V1.BuildlogEvent) :
    ∀ p : V1.BuildlogStats × List String,
      (events.foldl V1.statsStep p).2 =
        (events.filterMap createLanguage?).foldl V1.insertLang p.2 := by
  induction events with
  | nil => intro p; rfl
  | cons e es ih =>
      intro p
      rw [List.foldl_cons, ih]
      obtain ⟨stats, set⟩ := p
      cases e <;>
        ((simp [V1.statsStep, createLanguage?, List.filterMap_cons]) <;>
          (try split) <;> (try rfl))

theorem mem_insertLang {x l : String} {set : List String} :
    x ∈ V1.insertLang set l ↔ x ∈ set ∨ x = l := by
  unfold V1.insertLang
  split_ifs with h
  · constructor
    · exact Or.inl
    · rintro (hx | rfl)
      · exact hx
      · exact h
  · simp [List.mem_append]

theorem nodup_insertLang {set : List String} (l : String) (h : set.Nodup) :
    (V1.insertLang set l).Nodup := by
  unfold V1.insertLang
  split_ifs with hmem
  · exact h
  · simp [List.nodup_append, h, hmem]

theorem foldl_insertLang_mem (langs : List String) :
    ∀ (set : List String) (x : String),
      x ∈ langs.foldl V1.insertLang set ↔ x ∈ set ∨ x ∈ langs := by
  induction langs with
  | nil => simp
  | cons a as ih =>
      intro set x
      rw [List.foldl_cons, ih, mem_insertLang]
      simp [List.mem_cons]
      tauto

theorem foldl_insertLang_nodup (langs : List String) :
    ∀ set : List String, set.Nodup → (langs.foldl V1.insertLang set).Nodup := by
  induction langs with
  | nil => intro set h; exact h
  | cons a as ih => intro set h; exact ih _ (nodup_insertLang a h)

/-- C7: the v1 `computeStats` tallies, in one pass, `eventCount` as the
event-list length, `promptCount`/`responseCount` as the number of
`prompt`/`ai_response` events, `linesAdded`/`linesRemoved` as the sums of
the `linesChanged` fields of `code_change` events carrying them,
`fileCount` as the final-state file count, and `languages` as the
duplicate-free lexicographically sorted union of `file_create` languages
and final-state file languages. -/
theorem computeStats_v1_spec (doc : V1.BuildlogFile) :
    (V1.computeStats doc).eventCount = doc.events.length ∧
    (V1.computeStats doc).durationSeconds = doc.metadata.durationSeconds ∧
    (V1.computeStats doc).fileCount = doc.finalState.files.length ∧
    (V1.computeStats doc).promptCount =
      doc.events.countP (fun e => e.type == "prompt") ∧
    (V1.computeStats doc).responseCount =
      doc.events.countP (fun e => e.type == "ai_response") ∧
    (V1.computeStats doc).linesAdded = (doc.events.map addedLines).sum ∧
    (V1.computeStats doc).linesRemoved = (doc.events.map removedLines).sum ∧
    (V1.computeStats doc).languages.Nodup ∧
    List.Sorted (fun a b => a ≤ b) (V1.computeStats doc).languages ∧
    (∀ l, l ∈ (V1.computeStats doc).languages ↔
      l ∈ doc.events.filterMap createLanguage? ∨
      l ∈ doc.finalState.files.map V1.FileSnapshot.language) := by
  have hmapfold : ∀ (S : List String),
      doc.finalState.files.foldl (fun set f => V1.insertLang set f.language) S =
        (doc.finalState.files.map V1.FileSnapshot.language).foldl V1.insertLang S := by
    intro S
    rw [List.foldl_map]
  simp only [V1.computeStats]
  rw [statsFold_fst, statsFold_snd, hmapfold]
  refine ⟨rfl, rfl, rfl, by simp, by simp, by simp, by simp, ?_, ?_, ?_⟩
  · simp only [V1.sortLangs]
    exact ((List.perm_insertionSort _ _).nodup_iff).mpr
      (foldl_insertLang_nodup _ _ (foldl_insertLang_nodup _ _ List.nodup_nil))
  · simp only [V1.sortLangs]
    exact List.sorted_insertionSort _ _
  · intro l
    simp only [V1.sortLangs, List.mem_insertionSort]
    rw [foldl_insertLang_mem, foldl_insertLang_mem]
    simp

/-- Witness for C7: on the v1 test document (1 prompt + 1 ai_response
event, 1 final-state file) the stats are eventCount 2, promptCount 1,
responseCount 1, fileCount 1. -/
theorem computeStats_v1_spec_witness :
    (V1.computeStats sampleV1Doc).eventCount = 2 ∧
    (V1.computeStats sampleV1Doc).promptCount = 1 ∧
    (V1.computeStats sampleV1Doc).responseCount = 1 ∧
    (V1.computeStats sampleV1Doc).fileCount = 1 := by
  have h := computeStats_v1_spec sampleV1Doc
  exact ⟨h.1.trans (by decide), (h.2.2.2.1).trans (by decide),
    (h.2.2.2.2.1).trans (by decide), (h.2.2.1).trans (by decide)⟩

theorem foldl_statsStep_isReplicable (steps : List BuildlogStep) :
    ∀ s : BuildlogStats, (steps.foldl statsStep s).isReplicable = s.isReplicable := by
  induction steps with
  | nil => intro s; rfl
  | cons step rest ih =>
      intro s
      rw [List.foldl_cons, ih]
      cases step <;> rfl

/-- C8: the v2 `computeStats` copies `outcome.canReplicate` into its
`isReplicable` field unchanged — ignoring `metadata.replicable` and the
presence of prompt steps — so a document exists (canReplicate true,
replicable false) where `computeStats` reports replicable while the
`isReplicable` operation answers false. -/
theorem computeStats_isReplicable_mismatch :
    (∀ doc : BuildlogFile, (computeStats doc).isReplicable = doc.outcome.canReplicate) ∧
    (∃ doc : BuildlogFile, (computeStats doc).isReplicable = true ∧
      isReplicable doc = false) := by
  constructor
  · intro doc
    rw [computeStats, foldl_statsStep_isReplicable]
  · exact ⟨mismatchDoc, by decide, by decide⟩

/-- C9: the two duration-formatting conventions at the claim's exact
boundary values — the colon-delimited clock form (v2
`formatDurationClock` and the v1 `formatDuration`) and the unit-suffixed
form (v2 `formatDuration`), which drops seconds once hours are present. -/
theorem formatDuration_two_conventions :
    formatDurationClock 65 = "1:05" ∧ formatDurationClock 3661 = "1:01:01" ∧
    formatDurationClock 0 = "0:00" ∧
    V1.formatDuration 65 = "1:05" ∧ V1.formatDuration 3661 = "1:01:01" ∧
    V1.formatDuration 0 = "0:00" ∧
    formatDuration 65 = "1m 5s" ∧ formatDuration 3661 = "1h 1m" ∧
    formatDuration 0 = "0s" := by decide

theorem mem_collapseRuns {c : Char} :
    ∀ (b : Bool) (l : List Char), c ∈ collapseRuns b l → isSlugChar c = true ∨ c = '-' := by
  intro b l
  induction l generalizing b with
  | nil => intro h; simp [collapseRuns] at h
  | cons a as ih =>
      intro h
      unfold collapseRuns at h
      split_ifs at h with h1 h2
      · rcases List.mem_cons.mp h with rfl | hm
        · exact Or.inl h1
        · exact ih false hm
      · exact ih true h
      · rcases List.mem_cons.mp h with rfl | hm
        · exact Or.inr rfl
        · exact ih true hm

theorem trimLeadingHyphen_subset (l : List Char) : trimLeadingHyphen l ⊆ l := by
  cases l with
  | nil => simp [trimLeadingHyphen]
  | cons a as =>
      simp only [trimLeadingHyphen]
      split_ifs with h
      · exact List.subset_cons_self a as
      · exact List.Subset.refl _

theorem trimTrailingHyphen_subset (l : List Char) : trimTrailingHyphen l ⊆ l := by
  unfold trimTrailingHyphen
  split_ifs with h
  · exact List.dropLast_subset l
  · exact List.Subset.refl _

/-- C10: every slug is at most 50 characters drawn from lowercase
letters, digits and hyphens — yet, because the truncation runs after the
hyphen-trimming, an input exists (49 letters, a space, more text) whose
slug ends in a hyphen. -/
theorem slugify_spec :
    (∀ title : String, (slugify title).length ≤ 50 ∧
      ∀ c ∈ (slugify title).data,
        ('a' ≤ c ∧ c ≤ 'z') ∨ ('0' ≤ c ∧ c ≤ '9') ∨ c = '-') ∧
    (∃ title : String, (slugify title).data.getLast? = some '-') := by
  constructor
  · intro title
    constructor
    · show (String.mk _).length ≤ 50
      simp only [String.length, List.length_take]
      omega
    · intro c hc
      have hc2 : c ∈ collapseRuns false (title.data.map Char.toLower) := by
        simp only [slugify] at hc
        exact trimLeadingHyphen_subset _ (trimTrailingHyphen_subset _
          (List.take_subset _ _ hc))
      rcases mem_collapseRuns false _ hc2 with h | h
      · simp only [isSlugChar, Bool.or_eq_true, Bool.and_eq_true,
          decide_eq_true_eq] at h
        tauto
      · tauto
  · exact ⟨"aaaaaaaaaaaaaaaaaaaaaaaaaaaaaaaaaaaaaaaaaaaaaaaaa b", by decide⟩

/-- Witness for C10: a concrete slug within the bound, whose first
character lands in the permitted character classes. -/
theorem slugify_spec_witness :
    (slugify "Hello World").length ≤ 50 ∧
    (('a' ≤ 'h' ∧ 'h' ≤ 'z') ∨ ('0' ≤ 'h' ∧ 'h' ≤ '9') ∨ 'h' = '-') :=
  ⟨(slugify_spec.1 "Hello World").1,
   (slugify_spec.1 "Hello World").2 'h' (by decide)⟩

end Buildlog
